import Mathlib

/-!
Shallow embedding of the leveldb SSTable writer (block_builder.cc,
filter_block.cc, table_builder.cc) with bytes as `Nat` (0..255) and byte
strings as `List Nat`.  Machine-width effects (uint32 truncation) are applied
where the source converts to a fixed-width integer (the coding primitives);
in-memory `size_t` values stay as `Nat`.
-/

namespace LevelDB

/-- Modelled from the spec: `PutVarint32`/`PutVarint64` from `util/coding`
(not under src/) use standard little-endian base-128 with MSB continuation.
This is the LEB128 loop: emit low 7 bits with the high bit set while more
bits remain. -/
def putVarintAux (v : Nat) : List Nat :=
  if v < 128 then [v]
  else (v % 128 + 128) :: putVarintAux (v / 128)
termination_by v
decreasing_by omega

/-- Modelled from the spec: varint32 truncates its argument to 32 bits. -/
def putVarint32 (v : Nat) : List Nat := putVarintAux (v % 2 ^ 32)

/-- Modelled from the spec: varint64 truncates its argument to 64 bits. -/
def putVarint64 (v : Nat) : List Nat := putVarintAux (v % 2 ^ 64)

/-- Modelled from the spec: `PutFixed32` from `util/coding` (not under src/)
appends the 4 little-endian bytes of the value as a uint32. -/
def putFixed32 (v : Nat) : List Nat :=
  [v % 256, v / 256 % 256, v / 2 ^ 16 % 256, v / 2 ^ 24 % 256]

/-- Modelled from the spec: `PutFixed64` appends 8 little-endian bytes. -/
def putFixed64 (v : Nat) : List Nat :=
  [v % 256, v / 2 ^ 8 % 256, v / 2 ^ 16 % 256, v / 2 ^ 24 % 256,
   v / 2 ^ 32 % 256, v / 2 ^ 40 % 256, v / 2 ^ 48 % 256, v / 2 ^ 56 % 256]

/-- Little-endian decoding of the first 4 bytes, inverse of `putFixed32`. -/
def decodeFixed32 (l : List Nat) : Nat :=
  l.getD 0 0 + l.getD 1 0 * 256 + l.getD 2 0 * 2 ^ 16 + l.getD 3 0 * 2 ^ 24

/-- The loop in `BlockBuilder::Add` (block_builder.cc:83-86): count of leading
positions at which the two byte strings agree. -/
def commonLen : List Nat → List Nat → Nat
  | a :: as, b :: bs => if a = b then commonLen as bs + 1 else 0
  | _, _ => 0

/-- In-memory state of `BlockBuilder` (block_builder.h / block_builder.cc).
`restarts` entries are stored by the source in a `vector<uint32_t>`; we keep
them as `Nat` and truncate at encode time, which yields identical bytes. -/
structure BlockBuilderState where
  buffer : List Nat
  restarts : List Nat
  counter : Nat
  finished : Bool
  last_key : List Nat
deriving DecidableEq

/-- Embedding of `BlockBuilder::BlockBuilder` (block_builder.cc:40-44): empty buffer, one
restart point at offset 0, zero counter. -/
def blockBuilderInit : BlockBuilderState :=
  { buffer := [], restarts := [0], counter := 0, finished := false, last_key := [] }

namespace BlockBuilder

/-- Embedding of `BlockBuilder::Reset` (block_builder.cc:46-53). -/
def reset (_s : BlockBuilderState) : BlockBuilderState := blockBuilderInit

/-- Embedding of `BlockBuilder::Add` (block_builder.cc:72-115), parameterised by
`options_->block_restart_interval`. -/
def add (interval : Nat) (s : BlockBuilderState) (key value : List Nat) :
    BlockBuilderState :=
  let p := if s.counter < interval
    then (s.restarts, s.counter, commonLen s.last_key key)
    else (s.restarts ++ [s.buffer.length], 0, 0)
  let restarts' := p.1
  let counter0 := p.2.1
  let shared := p.2.2
  let non_shared := key.length - shared
  { buffer := s.buffer ++ putVarint32 shared ++ putVarint32 non_shared ++
      putVarint32 value.length ++ key.drop shared ++ value
    restarts := restarts'
    counter := counter0 + 1
    finished := s.finished
    last_key := s.last_key.take shared ++ key.drop shared }

/-- Embedding of `BlockBuilder::CurrentSizeEstimate` (block_builder.cc:55-59). -/
def currentSizeEstimate (s : BlockBuilderState) : Nat :=
  s.buffer.length + s.restarts.length * 4 + 4

/-- The loop in `BlockBuilder::Finish` (block_builder.cc:63-65): each restart
offset appended as a fixed32. -/
def putFixed32List : List Nat → List Nat
  | [] => []
  | r :: rs => putFixed32 r ++ putFixed32List rs

/-- Embedding of `BlockBuilder::Finish` (block_builder.cc:61-70); the returned slice is the
whole resulting buffer. -/
def finish (s : BlockBuilderState) : BlockBuilderState :=
  { s with
    buffer := s.buffer ++ putFixed32List s.restarts ++ putFixed32 s.restarts.length
    finished := true }

/-- Embedding of `empty()` from block_builder.h: true iff the buffer is empty. -/
def empty (s : BlockBuilderState) : Bool := s.buffer.isEmpty

end BlockBuilder

/-- States reachable by valid call sequences on a `BlockBuilder` whose options
carry `block_restart_interval = interval`.  `gt` is the strict order of the
abstract comparator; `add` carries the asserted preconditions from
block_builder.cc:74-78 (`!finished_`, buffer empty or key above `last_key_`);
the constructor asserts `interval ≥ 1` (block_builder.cc:42). -/
inductive Reachable (interval : Nat) (gt : List Nat → List Nat → Prop) :
    BlockBuilderState → Prop
  | init : 1 ≤ interval → Reachable interval gt blockBuilderInit
  | add (s : BlockBuilderState) (key value : List Nat) :
      Reachable interval gt s → s.finished = false →
      (s.buffer = [] ∨ gt key s.last_key) →
      Reachable interval gt (BlockBuilder.add interval s key value)
  | reset (s : BlockBuilderState) :
      Reachable interval gt s → Reachable interval gt (BlockBuilder.reset s)
  | finish (s : BlockBuilderState) :
      Reachable interval gt s → s.finished = false →
      Reachable interval gt (BlockBuilder.finish s)

/-- A comparator-order placeholder used for concrete instantiations. -/
def neverGt : List Nat → List Nat → Prop := fun _ _ => False

/-- Filter shard width: `kFilterBase = 1 << kFilterBaseLg` (filter_block.cc:15-16). -/
def kFilterBaseLg : Nat := 11

def kFilterBase : Nat := 2 ^ kFilterBaseLg

/-- In-memory state of `FilterBlockBuilder` (filter_block.h).  `start` models
`start_` (key boundaries inside `keys`), `tmp_keys` the scratch slice vector.
`filter_offsets` entries live in a `vector<uint32_t>` in the source; kept as
`Nat`, truncated at encode time. -/
structure FilterBlockState where
  keys : List Nat
  start : List Nat
  result : List Nat
  tmp_keys : List (List Nat)
  filter_offsets : List Nat
deriving DecidableEq

/-- Embedding of `FilterBlockBuilder::FilterBlockBuilder` (filter_block.cc:18-19): all
containers empty. -/
def fbInit : FilterBlockState :=
  { keys := [], start := [], result := [], tmp_keys := [], filter_offsets := [] }

namespace FilterBlock

/-- Embedding of `FilterBlockBuilder::AddKey` (filter_block.cc:34-38). -/
def addKey (s : FilterBlockState) (key : List Nat) : FilterBlockState :=
  { s with start := s.start ++ [s.keys.length], keys := s.keys ++ key }

/-- Embedding of `FilterBlockBuilder::GenerateFilter` (filter_block.cc:60-90),
parameterised by the filter policy: `policy ks` is the byte payload that
`FilterPolicy::CreateFilter` appends to `result_` for key list `ks` (the
policy implementation is outside this repository's builder sources). -/
def generateFilter (policy : List (List Nat) → List Nat)
    (s : FilterBlockState) : FilterBlockState :=
  if s.start = [] then
    { s with filter_offsets := s.filter_offsets ++ [s.result.length] }
  else
    let numKeys := s.start.length
    let starts' := s.start ++ [s.keys.length]
    let tmp := (List.range numKeys).map fun i =>
      (s.keys.drop (starts'.getD i 0)).take (starts'.getD (i + 1) 0 - starts'.getD i 0)
    { keys := []
      start := []
      result := s.result ++ policy tmp
      tmp_keys := []
      filter_offsets := s.filter_offsets ++ [s.result.length] }

/-- The while loop of `FilterBlockBuilder::StartBlock` (filter_block.cc:29-31). -/
def startBlockLoop (policy : List (List Nat) → List Nat) (filterIndex : Nat)
    (s : FilterBlockState) : FilterBlockState :=
  if filterIndex > s.filter_offsets.length then
    startBlockLoop policy filterIndex (generateFilter policy s)
  else s
termination_by filterIndex - s.filter_offsets.length
decreasing_by
  simp only [generateFilter]
  split <;> simp <;> omega

/-- Embedding of `FilterBlockBuilder::StartBlock` (filter_block.cc:21-32). -/
def startBlock (policy : List (List Nat) → List Nat) (blockOffset : Nat)
    (s : FilterBlockState) : FilterBlockState :=
  startBlockLoop policy (blockOffset / kFilterBase) s

/-- The first step of `FilterBlockBuilder::Finish` (filter_block.cc:44-46):
one `GenerateFilter` call if any keys are buffered (`!start_.empty()`). -/
def finishPre (policy : List (List Nat) → List Nat)
    (s : FilterBlockState) : FilterBlockState :=
  if s.start = [] then s else generateFilter policy s

/-- Embedding of `FilterBlockBuilder::Finish` (filter_block.cc:43-58): one `GenerateFilter`
if keys are buffered, then the per-filter offset array, the array's starting
offset, and the `kFilterBaseLg` byte, all appended to `result_`. -/
def finishState (policy : List (List Nat) → List Nat)
    (s : FilterBlockState) : FilterBlockState :=
  let s1 := finishPre policy s
  { s1 with result := s1.result ++ BlockBuilder.putFixed32List s1.filter_offsets ++
      putFixed32 s1.result.length ++ [kFilterBaseLg] }

/-- The slice returned by `FilterBlockBuilder::Finish`: the whole `result_`
after `finishState`. -/
def finishResult (policy : List (List Nat) → List Nat)
    (s : FilterBlockState) : List Nat :=
  (finishState policy s).result

/-- The per-shard payloads delimited by consecutive filter offsets, the last
one running to the end of `result` — exactly the slices
`[offset[i], offset[i+1])` that the reader extracts. -/
def shardChunks (result : List Nat) : List Nat → List (List Nat)
  | [] => []
  | [o] => [result.drop o]
  | o1 :: o2 :: rest => (result.drop o1).take (o2 - o1) :: shardChunks result (o2 :: rest)

end FilterBlock

/-- States reachable by a sequence of `StartBlock`/`AddKey` calls on a
`FilterBlockBuilder`; `startBlock` carries the asserted precondition
`filter_index >= filter_offsets_.size()` (filter_block.cc:28). -/
inductive FBReachable (policy : List (List Nat) → List Nat) :
    FilterBlockState → Prop
  | init : FBReachable policy fbInit
  | addKey (s : FilterBlockState) (key : List Nat) :
      FBReachable policy s → FBReachable policy (FilterBlock.addKey s key)
  | startBlock (s : FilterBlockState) (blockOffset : Nat) :
      FBReachable policy s →
      s.filter_offsets.length ≤ blockOffset / kFilterBase →
      FBReachable policy (FilterBlock.startBlock policy blockOffset s)

/-- Structural invariant of the filter builder: the shard offsets are
non-decreasing, all bounded by the length of `result`, start at 0 when any
exist, and `result` is empty while no shard has been recorded.  It makes the
shard payloads recoverable as the slices between consecutive offsets. -/
def fbInv (s : FilterBlockState) : Prop :=
  List.Chain' (fun a b => a ≤ b) s.filter_offsets ∧
  (∀ o ∈ s.filter_offsets, o ≤ s.result.length) ∧
  (s.filter_offsets = [] → s.result = []) ∧
  (∀ o, s.filter_offsets.head? = some o → o = 0)

/-- A concrete filter policy used for witnesses: every shard payload is the
single byte 7. -/
def constPolicy : List (List Nat) → List Nat := fun _ => [7]

/-- Embedding of `leveldb::Status` (include/leveldb/status.h): success or one of five
error codes with an attached message. -/
inductive Status where
  | ok : Status
  | notFound (msg : String)
  | corruption (msg : String)
  | notSupported (msg : String)
  | invalidArgument (msg : String)
  | ioError (msg : String)
deriving DecidableEq

/-- Embedding of `CompressionType` from include/leveldb/options.h: `kNoCompression = 0`,
`kSnappyCompression = 1`. -/
inductive CompressionType where
  | noCompression : CompressionType
  | snappyCompression : CompressionType
deriving DecidableEq

/-- The numeric value stored in the trailer's first byte. -/
def CompressionType.byte : CompressionType → Nat
  | .noCompression => 0
  | .snappyCompression => 1

/-- Embedding of `kBlockTrailerSize` (table/format.h): 1-byte type + 4-byte crc. -/
def kBlockTrailerSize : Nat := 5

/-- The append-only file sink (`WritableFile`).  `data` is everything
appended so far; `ops` counts the fallible calls (`Append`/`Flush`) issued,
indexing into the environment's outcome oracle. -/
structure FileState where
  data : List Nat
  ops : Nat
deriving DecidableEq

/-- The outcome oracle for the file sink: `env n` is the `Status` returned by
the n-th fallible file operation. -/
def FileEnv : Type := Nat → Status

/-- Embedding of `WritableFile::Append`: returns the oracle's status for this operation;
on success the bytes are appended, on failure we model the sink as leaving
the data unchanged. -/
def fileAppend (env : FileEnv) (f : FileState) (bytes : List Nat) :
    FileState × Status :=
  if env f.ops = Status.ok then
    ({ data := f.data ++ bytes, ops := f.ops + 1 }, Status.ok)
  else ({ f with ops := f.ops + 1 }, env f.ops)

/-- Embedding of `WritableFile::Flush`: consumes one oracle slot, appends nothing. -/
def fileFlush (env : FileEnv) (f : FileState) : FileState × Status :=
  ({ f with ops := f.ops + 1 }, env f.ops)

/-- The builder-relevant subset of `Options` (include/leveldb/options.h).
`comparatorId` stands for the comparator pointer, compared by identity in
`ChangeOptions`; `hasFilterPolicy` for `filter_policy != nullptr`. -/
structure Options where
  comparatorId : Nat
  hasFilterPolicy : Bool
  compression : CompressionType
  blockSize : Nat
  blockRestartInterval : Nat
deriving DecidableEq

/-- The external collaborators the table builder calls into, none of which
are implemented under the builder sources: `sep`/`short_succ` are the
comparator's `FindShortestSeparator`/`FindShortSuccessor` refinement hooks,
`snappy` is `port::Snappy_Compress` (`none` when unavailable/failing),
`crc32c` the Castagnoli CRC of a byte string (so that
`Extend(Value(a), b) = crc32c (a ++ b)`), `createFilter` the policy's
`CreateFilter` payload and `policyName` its `Name()` bytes. -/
structure Externals where
  sep : List Nat → List Nat → List Nat
  short_succ : List Nat → List Nat
  snappy : List Nat → Option (List Nat)
  crc32c : List Nat → Nat
  createFilter : List (List Nat) → List Nat
  policyName : List Nat

/-- Modelled from the spec: `crc32c::Mask` (util/crc32c.h, not under src/):
`mask(c) = ((c >> 15) | (c << 17)) + 0xa282ead8` in wrapping uint32
arithmetic. -/
def crcMask (c : Nat) : Nat :=
  let u := c % 2 ^ 32
  ((u / 2 ^ 15 ||| u * 2 ^ 17 % 2 ^ 32) + 0xa282ead8) % 2 ^ 32

/-- Embedding of `BlockHandle` (table/format.h): offset/size locator of a block payload. -/
structure BlockHandle where
  offset : Nat
  size : Nat
deriving DecidableEq

/-- Embedding of `BlockHandle::EncodeTo`: two varint64s (spec §6; format.cc is not under
src/). -/
def encodeHandle (h : BlockHandle) : List Nat :=
  putVarint64 h.offset ++ putVarint64 h.size

/-- Modelled from the spec: the 48-byte footer — the two handle encodings
padded to 40 bytes, then the 8-byte little-endian magic (format.cc is not
under src/; the magic constant is the implementation's choice). -/
def footerEncode (metaindexHandle indexHandle : BlockHandle) : List Nat :=
  let e := encodeHandle metaindexHandle ++ encodeHandle indexHandle
  e ++ List.replicate (40 - e.length) 0 ++ putFixed64 0xdb4775248b80fb57

/-- Embedding of `TableBuilder::Rep` (table_builder.cc:21-63); the external file sink is
embedded as a field so its contents can be observed. -/
structure Rep where
  options : Options
  indexBlockOptions : Options
  file : FileState
  offset : Nat
  status : Status
  dataBlock : BlockBuilderState
  indexBlock : BlockBuilderState
  lastKey : List Nat
  numEntries : Nat
  closed : Bool
  filterBlock : Option FilterBlockState
  pendingIndexEntry : Bool
  pendingHandle : BlockHandle
  compressedOutput : List Nat
deriving DecidableEq

namespace TableBuilder

/-- Embedding of `TableBuilder::TableBuilder` (table_builder.cc:65-70) with
`Rep::Rep` (table_builder.cc:22-36): fresh builders, restart interval 1 for
the index block, plus the initial `StartBlock(0)` on the filter builder. -/
def mk (E : Externals) (opts : Options) (f : FileState) : Rep :=
  { options := opts
    indexBlockOptions := { opts with blockRestartInterval := 1 }
    file := f
    offset := 0
    status := Status.ok
    dataBlock := blockBuilderInit
    indexBlock := blockBuilderInit
    lastKey := []
    numEntries := 0
    closed := false
    filterBlock := if opts.hasFilterPolicy
      then some (FilterBlock.startBlock E.createFilter 0 fbInit) else none
    pendingIndexEntry := false
    pendingHandle := { offset := 0, size := 0 }
    compressedOutput := [] }

/-- Embedding of `TableBuilder::ChangeOptions` (table_builder.cc:78-92): reject a changed
comparator with `InvalidArgument` (leaving the rep untouched), otherwise
install the new options and re-derive the index-block options with restart
interval 1. -/
def changeOptions (r : Rep) (opts : Options) : Status × Rep :=
  if opts.comparatorId ≠ r.options.comparatorId then
    (Status.invalidArgument "changing comparator while building table", r)
  else
    (Status.ok,
     { r with options := opts,
              indexBlockOptions := { opts with blockRestartInterval := 1 } })

/-- Embedding of `TableBuilder::WriteRawBlock` (table_builder.cc:202-219): set the handle
to (current offset, payload size), append the payload, then on success append
the 5-byte trailer (type byte + masked crc of payload-plus-type), and only
after both succeed advance `offset` by payload size + 5. -/
def writeRawBlock (E : Externals) (env : FileEnv) (contents : List Nat)
    (type : CompressionType) (r : Rep) : Rep × BlockHandle :=
  let handle : BlockHandle := { offset := r.offset, size := contents.length }
  let a1 := fileAppend env r.file contents
  let r1 := { r with file := a1.1, status := a1.2 }
  if a1.2 = Status.ok then
    let trailer := type.byte ::
      putFixed32 (crcMask (E.crc32c (contents ++ [type.byte])))
    let a2 := fileAppend env a1.1 trailer
    let r2 := { r1 with file := a2.1, status := a2.2 }
    if a2.2 = Status.ok then
      ({ r2 with offset := r.offset + contents.length + kBlockTrailerSize }, handle)
    else (r2, handle)
  else (r1, handle)

/-- Embedding of `TableBuilder::WriteBlock` (table_builder.cc:166-200): finish the block,
pick the payload per the compression policy (snappy only when it saves more
than 1/8), write it raw, clear the compression scratch, reset the builder.
Returns the new rep, the handle, and the reset block state. -/
def writeBlock (E : Externals) (env : FileEnv) (r : Rep)
    (block : BlockBuilderState) : Rep × BlockHandle × BlockBuilderState :=
  let raw := (BlockBuilder.finish block).buffer
  let pick : List Nat × CompressionType :=
    match r.options.compression with
    | CompressionType.noCompression => (raw, CompressionType.noCompression)
    | CompressionType.snappyCompression =>
      match E.snappy raw with
      | some comp =>
        if comp.length < raw.length - raw.length / 8
        then (comp, CompressionType.snappyCompression)
        else (raw, CompressionType.noCompression)
      | none => (raw, CompressionType.noCompression)
  let w := writeRawBlock E env pick.1 pick.2 r
  ({ w.1 with compressedOutput := [] }, w.2, BlockBuilder.reset block)

/-- Embedding of `TableBuilder::Flush` (table_builder.cc:144-161): early-return on error
or empty data block; otherwise write the data block, on success mark the
pending index entry and flush the sink, and in all cases advance the filter
builder to the new offset. -/
def flush (E : Externals) (env : FileEnv) (r : Rep) : Rep :=
  if r.status = Status.ok then
    if r.dataBlock.buffer = [] then r
    else
      let w := writeBlock E env r r.dataBlock
      let r2 := { w.1 with pendingHandle := w.2.1, dataBlock := w.2.2 }
      let r3 :=
        if r2.status = Status.ok then
          let fl := fileFlush env r2.file
          { r2 with pendingIndexEntry := true, file := fl.1, status := fl.2 }
        else r2
      match r3.filterBlock with
      | some fb =>
        let fb' := FilterBlock.startBlock E.createFilter r3.offset fb
        { r3 with filterBlock := some fb' }
      | none => r3
  else r

/-- Embedding of `TableBuilder::Add` (table_builder.cc:95-142): early-return on error;
emit the owed index entry using the shortest separator; feed the filter
builder; record the key, bump the count, add to the data block; flush when
the size estimate reaches `block_size`. -/
def add (E : Externals) (env : FileEnv) (r : Rep) (key value : List Nat) :
    Rep :=
  if r.status = Status.ok then
    let r1 :=
      if r.pendingIndexEntry then
        let sepKey := E.sep r.lastKey key
        { r with lastKey := sepKey
                 indexBlock := BlockBuilder.add
                   r.indexBlockOptions.blockRestartInterval r.indexBlock
                   sepKey (encodeHandle r.pendingHandle)
                 pendingIndexEntry := false }
      else r
    let r2 :=
      match r1.filterBlock with
      | some fb => { r1 with filterBlock := some (FilterBlock.addKey fb key) }
      | none => r1
    let r3 := { r2 with
      lastKey := key
      numEntries := r2.numEntries + 1
      dataBlock := BlockBuilder.add r2.options.blockRestartInterval
        r2.dataBlock key value }
    if r3.options.blockSize ≤ BlockBuilder.currentSizeEstimate r3.dataBlock
    then flush E env r3 else r3
  else r

/-- The metaindex key bytes: the string "filter." followed by the policy
name (table_builder.cc:251-252). -/
def filterDotName (E : Externals) : List Nat :=
  [102, 105, 108, 116, 101, 114, 46] ++ E.policyName

/-- Embedding of `TableBuilder::Finish` (table_builder.cc:224-291): flush, mark closed,
then — each step only while the status is still ok — write the filter block
raw and uncompressed, the metaindex block, the index block (emitting the owed
index entry with a short successor first), and the footer. -/
def finish (E : Externals) (env : FileEnv) (r : Rep) : Rep :=
  let r1 := flush E env r
  let r2 := { r1 with closed := true }
  let step3 : Rep × BlockHandle :=
    if r2.status = Status.ok then
      match r2.filterBlock with
      | some fb =>
        let fb' := FilterBlock.finishState E.createFilter fb
        let w := writeRawBlock E env fb'.result CompressionType.noCompression
          { r2 with filterBlock := some fb' }
        w
      | none => (r2, { offset := 0, size := 0 })
    else (r2, { offset := 0, size := 0 })
  let r3 := step3.1
  let filterHandle := step3.2
  let step4 : Rep × BlockHandle :=
    if r3.status = Status.ok then
      let meta1 :=
        if r3.filterBlock.isSome then
          BlockBuilder.add r3.options.blockRestartInterval blockBuilderInit
            (filterDotName E) (encodeHandle filterHandle)
        else blockBuilderInit
      let w := writeBlock E env r3 meta1
      (w.1, w.2.1)
    else (r3, { offset := 0, size := 0 })
  let r4 := step4.1
  let metaindexHandle := step4.2
  let step5 : Rep × BlockHandle :=
    if r4.status = Status.ok then
      let r4' :=
        if r4.pendingIndexEntry then
          let lk := E.short_succ r4.lastKey
          { r4 with lastKey := lk
                    indexBlock := BlockBuilder.add
                      r4.indexBlockOptions.blockRestartInterval r4.indexBlock
                      lk (encodeHandle r4.pendingHandle)
                    pendingIndexEntry := false }
        else r4
      let w := writeBlock E env r4' r4'.indexBlock
      ({ w.1 with indexBlock := w.2.2 }, w.2.1)
    else (r4, { offset := 0, size := 0 })
  let r5 := step5.1
  let indexHandle := step5.2
  if r5.status = Status.ok then
    let fe := footerEncode metaindexHandle indexHandle
    let ap := fileAppend env r5.file fe
    let r6 := { r5 with file := ap.1, status := ap.2 }
    if ap.2 = Status.ok then { r6 with offset := r6.offset + fe.length } else r6
  else r5

/-- Embedding of `TableBuilder::Abandon` (table_builder.cc:293-297). -/
def abandon (r : Rep) : Rep := { r with closed := true }

end TableBuilder

/-- Concrete externals for witnesses: identity-like comparator hooks, no
snappy support, a constant crc. -/
def extId : Externals :=
  { sep := fun a _ => a, short_succ := id, snappy := fun _ => none,
    crc32c := fun _ => 0, createFilter := fun _ => [7], policyName := [66] }

/-- Externals whose snappy always compresses to the two bytes `[9, 9]`. -/
def extSnap : Externals :=
  { sep := fun a _ => a, short_succ := id, snappy := fun _ => some [9, 9],
    crc32c := fun _ => 0, createFilter := fun _ => [7], policyName := [66] }

/-- An oracle under which every file operation succeeds. -/
def okEnv : FileEnv := fun _ => Status.ok

/-- An oracle under which every file operation fails with an I/O error. -/
def failEnv : FileEnv := fun _ => Status.ioError "boom"

/-- Default-like options with comparator id 0 and no compression. -/
def opts0 : Options :=
  { comparatorId := 0, hasFilterPolicy := false,
    compression := CompressionType.noCompression, blockSize := 4096,
    blockRestartInterval := 16 }

/-- Options differing from `opts0` only in the comparator identity. -/
def opts1 : Options :=
  { comparatorId := 1, hasFilterPolicy := false,
    compression := CompressionType.noCompression, blockSize := 4096,
    blockRestartInterval := 16 }

/-- Options selecting snappy compression. -/
def optsSnap : Options :=
  { comparatorId := 0, hasFilterPolicy := false,
    compression := CompressionType.snappyCompression, blockSize := 4096,
    blockRestartInterval := 16 }

/-- An empty file sink. -/
def file0 : FileState := { data := [], ops := 0 }

/-- A freshly constructed table builder over an empty file. -/
def rep0 : Rep := TableBuilder.mk extId opts0 file0

/-- A builder whose sticky status already records an error. -/
def badRep : Rep := { rep0 with status := Status.ioError "boom" }

/-- A fresh builder with snappy compression selected. -/
def repSnap : Rep := TableBuilder.mk extSnap optsSnap file0

theorem putFixed32_length (v : Nat) : (putFixed32 v).length = 4 := rfl

theorem putFixed32List_length (l : List Nat) :
    (BlockBuilder.putFixed32List l).length = 4 * l.length := by
  induction l with
  | nil => rfl
  | cons r rs ih =>
    simp [BlockBuilder.putFixed32List, putFixed32, ih]
    ring

theorem commonLen_le_left (a b : List Nat) : commonLen a b ≤ a.length := by
  induction a generalizing b with
  | nil => simp [commonLen]
  | cons x as ih =>
    cases b with
    | nil => simp [commonLen]
    | cons y bs =>
      simp only [commonLen]
      split
      · simpa using ih bs
      · simp

theorem commonLen_le_right (a b : List Nat) : commonLen a b ≤ b.length := by
  induction a generalizing b with
  | nil => simp [commonLen]
  | cons x as ih =>
    cases b with
    | nil => simp [commonLen]
    | cons y bs =>
      simp only [commonLen]
      split
      · simpa using ih bs
      · simp

theorem commonLen_take (a b : List Nat) :
    a.take (commonLen a b) = b.take (commonLen a b) := by
  induction a generalizing b with
  | nil => simp [commonLen]
  | cons x as ih =>
    cases b with
    | nil => simp [commonLen]
    | cons y bs =>
      simp only [commonLen]
      split
      · rename_i hxy
        simp only [List.take_succ_cons]
        rw [hxy, ih bs]
      · simp

theorem commonLen_maximal (a b : List Nat) (n : Nat) (hna : n ≤ a.length)
    (hnb : n ≤ b.length) (h : a.take n = b.take n) : n ≤ commonLen a b := by
  induction a generalizing b n with
  | nil => simp at hna; omega
  | cons x as ih =>
    cases b with
    | nil => simp at hnb; omega
    | cons y bs =>
      cases n with
      | zero => omega
      | succ m =>
        simp only [List.take_succ_cons, List.cons.injEq] at h
        simp only [commonLen, if_pos h.1]
        have := ih bs m (by simpa using hna) (by simpa using hnb) h.2
        omega

theorem commonLen_glue (a b : List Nat) :
    a.take (commonLen a b) ++ b.drop (commonLen a b) = b := by
  rw [commonLen_take]
  exact List.take_append_drop _ _

/-- C1: on an unfinished builder with an empty buffer or a larger key,
`BlockBuilder::Add` behaves as specified: when `counter < interval` the entry
is emitted with `shared` equal to the longest-common-prefix length of
`last_key` and `key` (characterised by agreement and maximality), the
restart array and `last_key = key` updated accordingly and the counter
incremented; when `counter = interval` the buffer length is appended to the
restart array, the counter is reset (then incremented to 1) and `shared` is
forced to 0 so the full key is encoded. -/
theorem C1_blockBuilder_add (interval : Nat)
    (cmp : List Nat → List Nat → Int) (s : BlockBuilderState)
    (key value : List Nat) (hfin : s.finished = false)
    (_hpre : s.buffer = [] ∨ 0 < cmp key s.last_key) :
    (s.counter < interval →
      BlockBuilder.add interval s key value =
        { buffer := s.buffer ++ putVarint32 (commonLen s.last_key key) ++
            putVarint32 (key.length - commonLen s.last_key key) ++
            putVarint32 value.length ++
            key.drop (commonLen s.last_key key) ++ value
          restarts := s.restarts
          counter := s.counter + 1
          finished := false
          last_key := key } ∧
      s.last_key.take (commonLen s.last_key key) =
        key.take (commonLen s.last_key key) ∧
      commonLen s.last_key key ≤ s.last_key.length ∧
      commonLen s.last_key key ≤ key.length ∧
      (∀ n, n ≤ s.last_key.length → n ≤ key.length →
        s.last_key.take n = key.take n → n ≤ commonLen s.last_key key)) ∧
    (s.counter = interval →
      BlockBuilder.add interval s key value =
        { buffer := s.buffer ++ putVarint32 0 ++ putVarint32 key.length ++
            putVarint32 value.length ++ key ++ value
          restarts := s.restarts ++ [s.buffer.length]
          counter := 1
          finished := false
          last_key := key }) := by
  constructor
  · intro h
    refine ⟨?_, commonLen_take _ _, commonLen_le_left _ _,
      commonLen_le_right _ _, commonLen_maximal _ _⟩
    simp [BlockBuilder.add, h, hfin, commonLen_glue]
  · intro h
    have hge : ¬ s.counter < interval := by omega
    simp [BlockBuilder.add, hge, hfin]

theorem C1_blockBuilder_add_witness :
    BlockBuilder.add 2 blockBuilderInit [97, 98] [49] =
      { buffer := [0, 2, 1, 97, 98, 49], restarts := [0], counter := 1,
        finished := false, last_key := [97, 98] } := by
  have h := (C1_blockBuilder_add 2 (fun _ _ => 1) blockBuilderInit
    [97, 98] [49] rfl (Or.inl rfl)).1 (by decide)
  rw [h.1]
  simp [putVarint32, putVarintAux, commonLen, blockBuilderInit]

/-- C7: `CurrentSizeEstimate` returns `buffer.len + 4 * restarts.len + 4`,
which is exactly the length of the slice `Finish` returns from the same
state. -/
theorem C7_currentSizeEstimate_exact (s : BlockBuilderState) :
    BlockBuilder.currentSizeEstimate s = (BlockBuilder.finish s).buffer.length := by
  simp [BlockBuilder.currentSizeEstimate, BlockBuilder.finish,
    putFixed32List_length, putFixed32]
  ring

theorem reachable_one_le_interval (interval : Nat)
    (gt : List Nat → List Nat → Prop) (s : BlockBuilderState)
    (h : Reachable interval gt s) : 1 ≤ interval := by
  induction h with
  | init h1 => exact h1
  | add _ _ _ _ _ _ ih => exact ih
  | reset _ _ ih => exact ih
  | finish _ _ _ ih => exact ih

/-- C8 as stated is false: after the `Add` that fills the restart window the
counter equals `block_restart_interval` (the source itself only asserts
`counter_ <= block_restart_interval`).  With interval 1, a single valid
`Add` on a fresh builder yields `counter = 1`, violating
`counter < block_restart_interval`. -/
theorem C8_counterexample :
    Reachable 1 neverGt (BlockBuilder.add 1 blockBuilderInit [97] []) ∧
    ¬ (BlockBuilder.add 1 blockBuilderInit [97] []).counter < 1 := by
  refine ⟨Reachable.add _ _ _ (Reachable.init (by norm_num)) rfl (Or.inl rfl), ?_⟩
  simp [BlockBuilder.add, blockBuilderInit]

/-- C8 amended: in every reachable `BlockBuilder` state the counter satisfies
`0 ≤ counter ≤ block_restart_interval` (the upper bound is reached exactly
after the add that fills a restart window). -/
theorem C8_counter_le_interval (interval : Nat)
    (gt : List Nat → List Nat → Prop) (s : BlockBuilderState)
    (h : Reachable interval gt s) : s.counter ≤ interval := by
  induction h with
  | init h1 => simp [blockBuilderInit]
  | add s' key value hr hfin hpre ih =>
    have h1 := reachable_one_le_interval _ _ _ hr
    by_cases hc : s'.counter < interval
    · simp [BlockBuilder.add, hc]
      omega
    · simp [BlockBuilder.add, hc]
      omega
  | reset _ _ ih => simp [BlockBuilder.reset, blockBuilderInit]
  | finish s' hr hfin ih => simpa [BlockBuilder.finish] using ih

theorem C8_counter_le_interval_witness : blockBuilderInit.counter ≤ 1 :=
  C8_counter_le_interval 1 neverGt _ (Reachable.init (by norm_num))

theorem generateFilter_offsets_length (policy : List (List Nat) → List Nat)
    (s : FilterBlockState) :
    (FilterBlock.generateFilter policy s).filter_offsets.length =
      s.filter_offsets.length + 1 := by
  simp only [FilterBlock.generateFilter]
  split <;> simp

theorem startBlockLoop_offsets_length (policy : List (List Nat) → List Nat)
    (fi : Nat) (s : FilterBlockState) (h : s.filter_offsets.length ≤ fi) :
    (FilterBlock.startBlockLoop policy fi s).filter_offsets.length = fi := by
  generalize hk : fi - s.filter_offsets.length = k
  induction k generalizing s with
  | zero =>
    rw [FilterBlock.startBlockLoop]
    have hng : ¬ fi > s.filter_offsets.length := by omega
    simp [hng]
    omega
  | succ m ih =>
    rw [FilterBlock.startBlockLoop]
    have hgt : fi > s.filter_offsets.length := by omega
    simp [hgt]
    apply ih
    · rw [generateFilter_offsets_length]
      omega
    · rw [generateFilter_offsets_length]
      omega

/-- C6: when `block_offset / 2048` is at least the current number of shard
offsets (the asserted precondition of `StartBlock`), the loop calls
`GenerateFilter` until the offset count equals `block_offset / 2048`; a
`GenerateFilter` call with no buffered keys only appends `result.len()` to
`filter_offsets`, leaving everything else (in particular `result`) unchanged,
so two consecutive such calls append two equal offset values. -/
theorem C6_startBlock_empty_shards (policy : List (List Nat) → List Nat)
    (s : FilterBlockState) (off : Nat)
    (h : s.filter_offsets.length ≤ off / 2048) :
    (FilterBlock.startBlock policy off s).filter_offsets.length = off / 2048 ∧
    (s.start = [] →
      FilterBlock.generateFilter policy s =
        { s with filter_offsets := s.filter_offsets ++ [s.result.length] }) ∧
    (s.start = [] →
      (FilterBlock.generateFilter policy
          (FilterBlock.generateFilter policy s)).filter_offsets =
        s.filter_offsets ++ [s.result.length, s.result.length]) := by
  have hbase : kFilterBase = 2048 := by norm_num [kFilterBase, kFilterBaseLg]
  refine ⟨?_, ?_, ?_⟩
  · rw [FilterBlock.startBlock, hbase]
    exact startBlockLoop_offsets_length policy _ s h
  · intro hs
    simp [FilterBlock.generateFilter, hs]
  · intro hs
    have h1 : FilterBlock.generateFilter policy s =
        { s with filter_offsets := s.filter_offsets ++ [s.result.length] } := by
      simp [FilterBlock.generateFilter, hs]
    rw [h1]
    simp [FilterBlock.generateFilter, hs]

theorem C6_startBlock_empty_shards_witness :
    (FilterBlock.startBlock constPolicy 4097 fbInit).filter_offsets.length = 2 ∧
    FilterBlock.generateFilter constPolicy fbInit =
      { fbInit with filter_offsets := [0] } := by
  obtain ⟨h1, h2, _⟩ :=
    C6_startBlock_empty_shards constPolicy fbInit 4097 (by norm_num [fbInit])
  refine ⟨by simpa using h1, by simpa [fbInit] using h2 rfl⟩

theorem fbInv_init : fbInv fbInit := by
  simp [fbInv, fbInit]

theorem fbInv_addKey (s : FilterBlockState) (key : List Nat) (h : fbInv s) :
    fbInv (FilterBlock.addKey s key) := by
  simpa [fbInv, FilterBlock.addKey] using h

theorem fbInv_generateFilter (policy : List (List Nat) → List Nat)
    (s : FilterBlockState) (h : fbInv s) :
    fbInv (FilterBlock.generateFilter policy s) := by
  obtain ⟨hchain, hbound, hempty, hhead⟩ := h
  have hchain' :
      List.Chain' (fun a b => a ≤ b) (s.filter_offsets ++ [s.result.length]) := by
    rw [List.chain'_append]
    refine ⟨hchain, List.chain'_singleton _, ?_⟩
    intro x hx y hy
    simp at hy
    subst hy
    exact hbound x (List.mem_of_mem_getLast? hx)
  have hboundA : ∀ ext : List Nat, ∀ o ∈ s.filter_offsets ++ [s.result.length],
      o ≤ (s.result ++ ext).length := by
    intro ext o ho
    simp only [List.mem_append, List.mem_singleton] at ho
    simp only [List.length_append]
    rcases ho with ho | ho
    · exact (hbound o ho).trans (Nat.le_add_right _ _)
    · omega
  have hhead' : ∀ o, (s.filter_offsets ++ [s.result.length]).head? = some o →
      o = 0 := by
    intro o ho
    cases hfo : s.filter_offsets with
    | nil =>
      rw [hfo] at ho
      simp at ho
      have h0 := hempty hfo
      rw [h0] at ho
      simp at ho
      omega
    | cons a rest =>
      rw [hfo] at ho
      simp at ho
      have ha := hhead a (by rw [hfo]; rfl)
      omega
  simp only [FilterBlock.generateFilter]
  split
  · exact ⟨hchain', fun o ho => by simpa using hboundA [] o ho,
      fun h' => absurd h' (by simp), hhead'⟩
  · exact ⟨hchain', hboundA _, fun h' => absurd h' (by simp), hhead'⟩

theorem fbInv_startBlockLoop (policy : List (List Nat) → List Nat)
    (fi : Nat) (s : FilterBlockState) (h : fbInv s) :
    fbInv (FilterBlock.startBlockLoop policy fi s) := by
  generalize hk : fi - s.filter_offsets.length = k
  induction k generalizing s with
  | zero =>
    rw [FilterBlock.startBlockLoop]
    split
    · rename_i hgt
      rw [FilterBlock.startBlockLoop]
      have : ¬ fi > (FilterBlock.generateFilter policy s).filter_offsets.length := by
        rw [generateFilter_offsets_length]
        omega
      simp only [this, if_neg, ite_false]
      exact fbInv_generateFilter policy s h
    · exact h
  | succ m ih =>
    rw [FilterBlock.startBlockLoop]
    split
    · rename_i hgt
      apply ih _ (fbInv_generateFilter policy s h)
      rw [generateFilter_offsets_length]
      omega
    · exact h

theorem fbInv_reachable (policy : List (List Nat) → List Nat)
    (s : FilterBlockState) (h : FBReachable policy s) : fbInv s := by
  induction h with
  | init => exact fbInv_init
  | addKey s' key _ ih => exact fbInv_addKey s' key ih
  | startBlock s' off _ _ ih => exact fbInv_startBlockLoop policy _ s' ih

theorem shardChunks_join_drop (res : List Nat) (o : Nat) (offs : List Nat)
    (hchain : List.Chain' (fun a b => a ≤ b) (o :: offs))
    (hbound : ∀ x ∈ o :: offs, x ≤ res.length) :
    (FilterBlock.shardChunks res (o :: offs)).flatten = res.drop o := by
  induction offs generalizing o with
  | nil => simp [FilterBlock.shardChunks]
  | cons o2 rest ih =>
    have hle : o ≤ o2 := (List.chain'_cons.mp hchain).1
    have ihres := ih o2 (List.chain'_cons.mp hchain).2
      (fun x hx => hbound x (List.mem_cons_of_mem _ hx))
    simp only [FilterBlock.shardChunks, List.flatten_cons, ihres]
    have : res.drop o2 = (res.drop o).drop (o2 - o) := by
      rw [List.drop_drop]
      congr 1
      omega
    rw [this, List.take_append_drop]

theorem fbInv_result_eq_join (s : FilterBlockState) (h : fbInv s) :
    (FilterBlock.shardChunks s.result s.filter_offsets).flatten = s.result := by
  obtain ⟨hchain, hbound, hempty, hhead⟩ := h
  cases hfo : s.filter_offsets with
  | nil =>
    rw [hempty hfo]
    simp [FilterBlock.shardChunks]
  | cons o rest =>
    have ho : o = 0 := hhead o (by rw [hfo]; rfl)
    rw [← hfo]
    rw [hfo, shardChunks_join_drop s.result o rest (hfo ▸ hchain)
      (fun x hx => hbound x (hfo ▸ hx)), ho]
    simp

/-- C2: for every state reached by `StartBlock`/`AddKey` calls, `Finish`
first runs `GenerateFilter` once when keys are buffered (folded into
`finishPre`) and returns the concatenated per-shard payloads (the slices of
`result` delimited by consecutive filter offsets), followed by each filter
offset as a little-endian u32, the byte offset at which that offset array
begins as a u32, and the single byte 11 (`kFilterBaseLg`); so the offset
array indeed starts at byte `arrayOffset` and the total length is
`arrayOffset + 4 * n + 5`. -/
theorem C2_filter_finish_layout (policy : List (List Nat) → List Nat)
    (s : FilterBlockState) (h : FBReachable policy s) :
    FilterBlock.finishResult policy s =
      (FilterBlock.shardChunks (FilterBlock.finishPre policy s).result
        (FilterBlock.finishPre policy s).filter_offsets).flatten ++
      BlockBuilder.putFixed32List (FilterBlock.finishPre policy s).filter_offsets ++
      putFixed32 (FilterBlock.finishPre policy s).result.length ++
      [kFilterBaseLg] ∧
    (FilterBlock.finishResult policy s).drop
        (FilterBlock.finishPre policy s).result.length =
      BlockBuilder.putFixed32List (FilterBlock.finishPre policy s).filter_offsets ++
      putFixed32 (FilterBlock.finishPre policy s).result.length ++
      [kFilterBaseLg] ∧
    (FilterBlock.finishResult policy s).length =
      (FilterBlock.finishPre policy s).result.length +
      4 * (FilterBlock.finishPre policy s).filter_offsets.length + 5 := by
  have hinv : fbInv (FilterBlock.finishPre policy s) := by
    rw [FilterBlock.finishPre]
    split
    · exact fbInv_reachable policy s h
    · exact fbInv_generateFilter policy s (fbInv_reachable policy s h)
  have hjoin := fbInv_result_eq_join _ hinv
  have hres : FilterBlock.finishResult policy s =
      (FilterBlock.finishPre policy s).result ++
      (BlockBuilder.putFixed32List (FilterBlock.finishPre policy s).filter_offsets ++
       putFixed32 (FilterBlock.finishPre policy s).result.length ++
       [kFilterBaseLg]) := by
    simp [FilterBlock.finishResult, FilterBlock.finishState]
  refine ⟨?_, ?_, ?_⟩
  · rw [hres, hjoin]
    simp
  · rw [hres]
    have := List.drop_left (FilterBlock.finishPre policy s).result
      (BlockBuilder.putFixed32List (FilterBlock.finishPre policy s).filter_offsets ++
       putFixed32 (FilterBlock.finishPre policy s).result.length ++ [kFilterBaseLg])
    simp only [← List.append_assoc] at this ⊢
    exact this
  · rw [hres]
    simp [putFixed32List_length, putFixed32]
    ring

theorem C2_filter_finish_layout_witness :
    FilterBlock.finishResult constPolicy fbInit = [0, 0, 0, 0, 11] := by
  have h := (C2_filter_finish_layout constPolicy fbInit FBReachable.init).1
  rw [h]
  simp [fbInit, FilterBlock.finishPre, FilterBlock.shardChunks, putFixed32,
    BlockBuilder.putFixed32List, kFilterBaseLg]

theorem decodeFixed32_putFixed32 (v : Nat) :
    decodeFixed32 (putFixed32 v) = v % 2 ^ 32 := by
  simp [putFixed32, decodeFixed32]
  omega

theorem crcMask_lt (c : Nat) : crcMask c < 2 ^ 32 := by
  simp only [crcMask]
  exact Nat.mod_lt _ (by norm_num)

/-- C3: when both sink appends succeed, `WriteRawBlock` leaves the file equal
to its previous contents, then the payload, then a 5-byte trailer whose first
byte is the compression type and whose remaining 4 bytes are the
little-endian masked CRC32C of the payload concatenated with the type byte,
with `mask(c) = ((c >> 15) | (c << 17)) + 0xa282ead8` under wrapping 32-bit
arithmetic (`crcMask`). -/
theorem C3_writeRawBlock_trailer (E : Externals) (env : FileEnv)
    (contents : List Nat) (type : CompressionType) (r : Rep)
    (h1 : env r.file.ops = Status.ok)
    (h2 : env (r.file.ops + 1) = Status.ok) :
    (TableBuilder.writeRawBlock E env contents type r).1.file.data =
      r.file.data ++ contents ++
      (type.byte :: putFixed32 (crcMask (E.crc32c (contents ++ [type.byte])))) ∧
    (type.byte ::
      putFixed32 (crcMask (E.crc32c (contents ++ [type.byte])))).length = 5 ∧
    decodeFixed32 (putFixed32 (crcMask (E.crc32c (contents ++ [type.byte])))) =
      crcMask (E.crc32c (contents ++ [type.byte])) := by
  refine ⟨?_, by simp [putFixed32], ?_⟩
  · simp [TableBuilder.writeRawBlock, fileAppend, h1, h2]
  · rw [decodeFixed32_putFixed32]
    exact Nat.mod_eq_of_lt (crcMask_lt _)

theorem C3_writeRawBlock_trailer_witness :
    (TableBuilder.writeRawBlock extId okEnv [5] CompressionType.noCompression
      rep0).1.file.data = [5, 0, 216, 234, 130, 162] := by
  have h := C3_writeRawBlock_trailer extId okEnv [5]
    CompressionType.noCompression rep0 rfl rfl
  rw [h.1]
  decide

/-- C4: `WriteRawBlock` advances `offset` by `payload.len() + 5` exactly when
both the payload append and the trailer append succeed; when an attempted
append fails, the sticky status is set to that error and `offset` is left
unchanged. -/
theorem C4_writeRawBlock_offset (E : Externals) (env : FileEnv)
    (contents : List Nat) (type : CompressionType) (r : Rep) :
    ((TableBuilder.writeRawBlock E env contents type r).1.offset =
        r.offset + contents.length + 5 ↔
      env r.file.ops = Status.ok ∧ env (r.file.ops + 1) = Status.ok) ∧
    (env r.file.ops ≠ Status.ok →
      (TableBuilder.writeRawBlock E env contents type r).1.status =
        env r.file.ops ∧
      (TableBuilder.writeRawBlock E env contents type r).1.offset = r.offset) ∧
    (env r.file.ops = Status.ok → env (r.file.ops + 1) ≠ Status.ok →
      (TableBuilder.writeRawBlock E env contents type r).1.status =
        env (r.file.ops + 1) ∧
      (TableBuilder.writeRawBlock E env contents type r).1.offset = r.offset) := by
  by_cases h1 : env r.file.ops = Status.ok
  · by_cases h2 : env (r.file.ops + 1) = Status.ok
    · simp [TableBuilder.writeRawBlock, fileAppend, h1, h2, kBlockTrailerSize]
    · simp [TableBuilder.writeRawBlock, fileAppend, h1, h2, kBlockTrailerSize]
      all_goals omega
  · simp [TableBuilder.writeRawBlock, fileAppend, h1, kBlockTrailerSize]
    all_goals omega

theorem C4_writeRawBlock_offset_witness :
    (TableBuilder.writeRawBlock extId failEnv [5]
      CompressionType.noCompression rep0).1.status = Status.ioError "boom" ∧
    (TableBuilder.writeRawBlock extId failEnv [5]
      CompressionType.noCompression rep0).1.offset = 0 := by
  have h := (C4_writeRawBlock_offset extId failEnv [5]
    CompressionType.noCompression rep0).2.1 (by decide)
  refine ⟨h.1.trans rfl, h.2.trans (by decide)⟩

/-- C5: under snappy compression, `WriteBlock` writes the compressed bytes
(with type byte 1 in the trailer) exactly when compression succeeds and
`compressed.len() < raw.len() - raw.len() / 8` (integer division); otherwise
— threshold missed or compression unavailable — the raw bytes are written
with effective type 0 in the trailer. -/
theorem C5_writeBlock_snappy_threshold (E : Externals) (env : FileEnv)
    (r : Rep) (block : BlockBuilderState)
    (hc : r.options.compression = CompressionType.snappyCompression)
    (h1 : env r.file.ops = Status.ok)
    (h2 : env (r.file.ops + 1) = Status.ok) :
    (∀ comp, E.snappy (BlockBuilder.finish block).buffer = some comp →
      comp.length < (BlockBuilder.finish block).buffer.length -
        (BlockBuilder.finish block).buffer.length / 8 →
      (TableBuilder.writeBlock E env r block).1.file.data =
        r.file.data ++ comp ++
        (1 :: putFixed32 (crcMask (E.crc32c (comp ++ [1]))))) ∧
    (∀ comp, E.snappy (BlockBuilder.finish block).buffer = some comp →
      ¬ comp.length < (BlockBuilder.finish block).buffer.length -
        (BlockBuilder.finish block).buffer.length / 8 →
      (TableBuilder.writeBlock E env r block).1.file.data =
        r.file.data ++ (BlockBuilder.finish block).buffer ++
        (0 :: putFixed32 (crcMask
          (E.crc32c ((BlockBuilder.finish block).buffer ++ [0]))))) ∧
    (E.snappy (BlockBuilder.finish block).buffer = none →
      (TableBuilder.writeBlock E env r block).1.file.data =
        r.file.data ++ (BlockBuilder.finish block).buffer ++
        (0 :: putFixed32 (crcMask
          (E.crc32c ((BlockBuilder.finish block).buffer ++ [0]))))) := by
  refine ⟨?_, ?_, ?_⟩
  · intro comp hcomp hlt
    simp [TableBuilder.writeBlock, TableBuilder.writeRawBlock, fileAppend,
      hc, hcomp, hlt, h1, h2, CompressionType.byte]
  · intro comp hcomp hlt
    simp [TableBuilder.writeBlock, TableBuilder.writeRawBlock, fileAppend,
      hc, hcomp, hlt, h1, h2, CompressionType.byte]
  · intro hnone
    simp [TableBuilder.writeBlock, TableBuilder.writeRawBlock, fileAppend,
      hc, hnone, h1, h2, CompressionType.byte]

theorem C5_writeBlock_snappy_threshold_witness :
    (TableBuilder.writeBlock extSnap okEnv repSnap blockBuilderInit).1.file.data =
      [9, 9, 1, 216, 234, 130, 162] := by
  have h := (C5_writeBlock_snappy_threshold extSnap okEnv repSnap
    blockBuilderInit rfl rfl rfl).1 [9, 9] rfl (by decide)
  rw [h]
  decide

/-- C9 as stated is false: a rejected `ChangeOptions` returns
`InvalidArgument` but does not touch the sticky status — the builder state,
including its ok status, is unchanged, so subsequent `Add`/`Flush` do not
early-return. -/
theorem C9_counterexample :
    (TableBuilder.changeOptions rep0 opts1).1 =
      Status.invalidArgument "changing comparator while building table" ∧
    (TableBuilder.changeOptions rep0 opts1).2 = rep0 ∧
    rep0.status = Status.ok := by
  refine ⟨by decide, by decide, by decide⟩

/-- C9 amended: the sticky status becomes not-ok only through failed
file-sink calls; a rejected `change_options` returns the `InvalidArgument`
error to the caller but leaves the builder — its status included —
unchanged.  Once the status is not-ok, `add` and `flush` return with the
state (and hence the file) untouched, and `finish` merely marks the builder
closed: every remaining write is skipped and the file is unchanged. -/
theorem C9_sticky_status (E : Externals) (env : FileEnv) (r : Rep)
    (key value : List Nat) (opts : Options)
    (h : r.status ≠ Status.ok) :
    TableBuilder.add E env r key value = r ∧
    TableBuilder.flush E env r = r ∧
    TableBuilder.finish E env r = { r with closed := true } ∧
    (opts.comparatorId ≠ r.options.comparatorId →
      TableBuilder.changeOptions r opts =
        (Status.invalidArgument "changing comparator while building table", r)) := by
  refine ⟨?_, ?_, ?_, ?_⟩
  · simp [TableBuilder.add, h]
  · simp [TableBuilder.flush, h]
  · simp [TableBuilder.finish, TableBuilder.flush, h]
  · intro hne
    simp [TableBuilder.changeOptions, hne]

theorem C9_sticky_status_witness :
    TableBuilder.add extId okEnv badRep [97] [98] = badRep ∧
    TableBuilder.finish extId okEnv badRep = { badRep with closed := true } := by
  have h := C9_sticky_status extId okEnv badRep [97] [98] opts1 (by decide)
  exact ⟨h.1, h.2.2.1⟩

/-- C10: `WriteRawBlock` sets the handle to the intended offset and size
before any append, so the returned handle records them even when an append
fails; and on a failed append every builder field other than the status (and
the external file sink) is unchanged, the offset included. -/
theorem C10_writeRawBlock_handle_frame (E : Externals) (env : FileEnv)
    (contents : List Nat) (type : CompressionType) (r : Rep) :
    (TableBuilder.writeRawBlock E env contents type r).2 =
      { offset := r.offset, size := contents.length } ∧
    (¬ (env r.file.ops = Status.ok ∧ env (r.file.ops + 1) = Status.ok) →
      (TableBuilder.writeRawBlock E env contents type r).1.offset = r.offset ∧
      (TableBuilder.writeRawBlock E env contents type r).1.options = r.options ∧
      (TableBuilder.writeRawBlock E env contents type r).1.indexBlockOptions =
        r.indexBlockOptions ∧
      (TableBuilder.writeRawBlock E env contents type r).1.dataBlock =
        r.dataBlock ∧
      (TableBuilder.writeRawBlock E env contents type r).1.indexBlock =
        r.indexBlock ∧
      (TableBuilder.writeRawBlock E env contents type r).1.lastKey = r.lastKey ∧
      (TableBuilder.writeRawBlock E env contents type r).1.numEntries =
        r.numEntries ∧
      (TableBuilder.writeRawBlock E env contents type r).1.closed = r.closed ∧
      (TableBuilder.writeRawBlock E env contents type r).1.filterBlock =
        r.filterBlock ∧
      (TableBuilder.writeRawBlock E env contents type r).1.pendingIndexEntry =
        r.pendingIndexEntry ∧
      (TableBuilder.writeRawBlock E env contents type r).1.pendingHandle =
        r.pendingHandle ∧
      (TableBuilder.writeRawBlock E env contents type r).1.compressedOutput =
        r.compressedOutput ∧
      (TableBuilder.writeRawBlock E env contents type r).1.status ≠
        Status.ok) := by
  by_cases h1 : env r.file.ops = Status.ok
  · by_cases h2 : env (r.file.ops + 1) = Status.ok
    · simp [TableBuilder.writeRawBlock, fileAppend, h1, h2]
    · simp [TableBuilder.writeRawBlock, fileAppend, h1, h2]
  · simp [TableBuilder.writeRawBlock, fileAppend, h1]

theorem C10_writeRawBlock_handle_frame_witness :
    (TableBuilder.writeRawBlock extId failEnv [1, 2]
      CompressionType.noCompression rep0).2 = { offset := 0, size := 2 } ∧
    (TableBuilder.writeRawBlock extId failEnv [1, 2]
      CompressionType.noCompression rep0).1.numEntries = rep0.numEntries := by
  have h := C10_writeRawBlock_handle_frame extId failEnv [1, 2]
    CompressionType.noCompression rep0
  have h2 := h.2 (by decide)
  exact ⟨h.1.trans (by decide), h2.2.2.2.2.2.2.1⟩

end LevelDB
